import Mathlib

deriving instance DecidableEq for Except

/-!
Shallow embedding of the comment-threading / audit-log / authentication /
team-invitation core of the Sportify backend (Express + Sequelize).

State is passed explicitly: every operation takes a `Store` (the relational
database plus an instrumentation trace of entity-table reads) and returns its
result together with the successor store.  JavaScript truthiness of the
numeric request fields (`entityId`, `parentId`, `teamId`) is modelled
explicitly: `0` is falsy.
-/

/-- A row of the `comments` table (models/Comment).  `createdAt` is the
Sequelize timestamp, modelled as a natural number. -/
structure CommentRec where
  id : Nat
  entityType : String
  entityId : Nat
  userId : Nat
  comment : String
  parentId : Option Nat
  createdAt : Nat
deriving DecidableEq

/-- The structured `oldValue` / `newValue` snapshots the comment controller
stores in audit-log rows (the three JSON object shapes it builds). -/
inductive Snapshot where
  | commentLink (entityType : String) (entityId : Nat) (parentId : Option Nat)
  | bodyText (comment : String)
  | deletedComment (id : Nat) (entityType : String) (entityId : Nat)
      (comment : String) (repliesCount : Nat)
deriving DecidableEq

/-- A row of the `logs` table (append-only audit ledger). -/
structure LogRec where
  id : Nat
  action : String
  description : String
  entityType : String
  entityId : Nat
  oldValue : Option Snapshot
  newValue : Option Snapshot
  performedBy : Nat
  ipAddress : Option String
  userAgent : Option String
  timestamp : Nat
deriving DecidableEq

/-- The part of the Express request the logger reads (req.ip, user-agent). -/
structure ReqCtx where
  ip : Option String
  userAgent : Option String
deriving DecidableEq

/-- The authenticated caller placed on `req.user` by the auth middleware. -/
structure Caller where
  id : Nat
  role : String
deriving DecidableEq

/-- The relational store: the four entity tables a comment can attach to
(sets of existing primary keys), the comments and logs tables, autoincrement
counters, the clock, a flag modelling availability of the log-write
dependency (`Log.create` throws iff `logWriteFails`), and an instrumentation
trace `entityReads` recording every read of an entity table. -/
structure Store where
  projects : List Nat
  documents : List Nat
  tasks : List Nat
  meetings : List Nat
  comments : List CommentRec
  logs : List LogRec
  nextCommentId : Nat
  nextLogId : Nat
  now : Nat
  logWriteFails : Bool
  entityReads : List (String × Nat)
deriving DecidableEq

/-- JavaScript truthiness of an optional numeric field: `0` is falsy, so
`parentId || null` stores `null` for both absent and zero values, and
`if (parentId)` skips the parent checks in both cases. -/
def truthyId : Option Nat → Option Nat
  | some n => if n = 0 then none else some n
  | none => none

/-- utils/logger.js `createLog`: builds a log row from the arguments and the
request context and inserts it.  If the insert throws (the log-write
dependency is down) the error is caught and `null` is returned, leaving the
store unchanged; the caller is never affected. -/
def createLog (s : Store) (action description entityType : String) (entityId : Nat)
    (oldValue newValue : Option Snapshot) (performedBy : Nat) (req : ReqCtx) :
    Option LogRec × Store :=
  if s.logWriteFails then
    (none, s)
  else
    let log : LogRec :=
      { id := s.nextLogId, action := action, description := description,
        entityType := entityType, entityId := entityId,
        oldValue := oldValue, newValue := newValue, performedBy := performedBy,
        ipAddress := req.ip, userAgent := req.userAgent, timestamp := s.now }
    (some log, { s with logs := s.logs ++ [log], nextLogId := s.nextLogId + 1 })

/-- The closed set of entity kinds a comment can attach to. -/
def validEntityTypes : List String := ["project", "document", "task", "meeting"]

/-- The `switch (entityType)` dispatch: does `entityId` exist in the table
selected by `entityType`?  (Pure part of the lookup.) -/
def entityCheck (s : Store) (entityType : String) (entityId : Nat) : Bool :=
  if entityType == "project" then s.projects.contains entityId
  else if entityType == "document" then s.documents.contains entityId
  else if entityType == "task" then s.tasks.contains entityId
  else if entityType == "meeting" then s.meetings.contains entityId
  else false

/-- The entity lookup (`Project.findByPk` / `Document.findByPk` / ...): the
read is recorded in the `entityReads` instrumentation trace. -/
def findEntity (s : Store) (entityType : String) (entityId : Nat) : Bool × Store :=
  (entityCheck s entityType entityId,
   { s with entityReads := s.entityReads ++ [(entityType, entityId)] })

/-- The distinct error return sites of the comment controller and auth
middleware, one constructor per kind of early `res.status(...)` return. -/
inductive CommentErr where
  | validationFailed
  | invalidEntityType
  | entityNotFound
  | parentNotFound
  | invalidReference
  | commentNotFound
  | forbidden
deriving DecidableEq

/-- HTTP status each comment-controller error site responds with. -/
def commentStatusCode : CommentErr → Nat
  | .validationFailed => 400
  | .invalidEntityType => 400
  | .entityNotFound => 404
  | .parentNotFound => 404
  | .invalidReference => 400
  | .commentNotFound => 404
  | .forbidden => 403

/-- commentController `createComment` (POST /api/comments).  Field-presence
validation, entity-type validation, entity lookup, optional parent checks
(existence, then same-entity), insert, then the best-effort audit write. -/
def createComment (s : Store) (user : Caller) (req : ReqCtx)
    (entityType : String) (entityId : Nat) (commentBody : String)
    (parentId : Option Nat) : Except CommentErr CommentRec × Store :=
  if entityType = "" ∨ entityId = 0 ∨ commentBody = "" then
    (.error .validationFailed, s)
  else if ¬ (validEntityTypes.contains entityType) then
    (.error .invalidEntityType, s)
  else
    let found := (findEntity s entityType entityId).fst
    let s1 := (findEntity s entityType entityId).snd
    if ¬ found then (.error .entityNotFound, s1)
    else
      let insert : Store → Except CommentErr CommentRec × Store := fun st =>
        let c : CommentRec :=
          { id := st.nextCommentId, entityType := entityType, entityId := entityId,
            userId := user.id, comment := commentBody,
            parentId := truthyId parentId, createdAt := st.now }
        let st1 := { st with comments := st.comments ++ [c],
                             nextCommentId := st.nextCommentId + 1 }
        let st2 := (createLog st1 "CREATE_COMMENT"
          "Commentaire cree" "comment" c.id none
          (some (.commentLink c.entityType c.entityId c.parentId)) user.id req).snd
        (.ok c, st2)
      match truthyId parentId with
      | some pid =>
        match s1.comments.find? (fun c => c.id == pid) with
        | none => (.error .parentNotFound, s1)
        | some parentComment =>
          if parentComment.entityType ≠ entityType ∨ parentComment.entityId ≠ entityId then
            (.error .invalidReference, s1)
          else insert s1
      | none => insert s1

/-- One element of the tree `getEntityComments` returns: a top-level comment
with its eagerly loaded direct replies. -/
structure CommentThread where
  comment : CommentRec
  replies : List CommentRec
deriving DecidableEq

/-- The response payload of `getEntityComments`. -/
structure CommentsPage where
  threads : List CommentThread
  total : Nat
  topLevel : Nat
deriving DecidableEq

/-- ORDER BY createdAt DESC for top-level comments (the root-level `order`
option of the findAll, which Sequelize honors). -/
def byCreatedAtDesc (a b : CommentRec) : Prop := b.createdAt ≤ a.createdAt

instance : DecidableRel byCreatedAtDesc := fun a b => Nat.decLe b.createdAt a.createdAt

/-- commentController `getEntityComments` (GET /api/comments/:entityType/:entityId).
Entity-type validation, entity lookup, then: all top-level comments of the
entity ordered newest-first (the root-level `order` of the findAll, which
Sequelize honors), each with its direct replies eagerly attached, plus an
independent total count of all comments (any depth) on the entity.

The source also writes `order: [['createdAt', 'ASC']]` *inside* the
`replies` include, but that include is not `separate: true`, and Sequelize 6
silently ignores include-level `order` on a joined include: the program's
reply order is whatever the SQL join produces, i.e. unspecified.  The
embedding therefore attaches the replies in table order and derives no
reply-ordering guarantee from it. -/
def getEntityComments (s : Store) (entityType : String) (entityId : Nat) :
    Except CommentErr CommentsPage × Store :=
  if ¬ (validEntityTypes.contains entityType) then
    (.error .invalidEntityType, s)
  else
    let found := (findEntity s entityType entityId).fst
    let s1 := (findEntity s entityType entityId).snd
    if ¬ found then (.error .entityNotFound, s1)
    else
      let tops := s1.comments.filter (fun c =>
        c.entityType == entityType && c.entityId == entityId && c.parentId == none)
      let sortedTops := tops.insertionSort byCreatedAtDesc
      let threads := sortedTops.map (fun p =>
        { comment := p,
          replies := s1.comments.filter (fun c => c.parentId == some p.id) })
      let total := (s1.comments.filter (fun c =>
        c.entityType == entityType && c.entityId == entityId)).length
      (.ok { threads := threads, total := total, topLevel := threads.length }, s1)

/-- commentController `updateComment` (PUT /api/comments/:id).  Presence
validation of the new body, lookup, author-only check, body replacement,
then the best-effort audit write with old/new body snapshots. -/
def updateComment (s : Store) (user : Caller) (req : ReqCtx) (id : Nat)
    (newBody : String) : Except CommentErr CommentRec × Store :=
  if newBody = "" then (.error .validationFailed, s)
  else
    match s.comments.find? (fun c => c.id == id) with
    | none => (.error .commentNotFound, s)
    | some existingComment =>
      if existingComment.userId ≠ user.id then (.error .forbidden, s)
      else
        let updated := { existingComment with comment := newBody }
        let s1 := { s with comments := s.comments.map (fun c => if c.id == id then { c with comment := newBody } else c) }
        let s2 := (createLog s1 "UPDATE_COMMENT" "Commentaire modifie" "comment"
          existingComment.id (some (.bodyText existingComment.comment))
          (some (.bodyText newBody)) user.id req).snd
        (.ok updated, s2)

/-- Transitive closure of the `ON DELETE CASCADE` foreign key on
`Comment.parentId`: starting from `dead`, repeatedly add the ids of comments
whose parent is already dead.  `fuel` bounds the iteration (the list length
suffices). -/
def cascadeIds : Nat → List CommentRec → List Nat → List Nat
  | 0, _, dead => dead
  | fuel + 1, cs, dead =>
    let newDead := dead ++ (cs.filter (fun c =>
      !(dead.contains c.id) &&
      (match c.parentId with
       | some p => dead.contains p
       | none => false))).map (fun c => c.id)
    cascadeIds fuel cs newDead

/-- commentController `deleteComment` (DELETE /api/comments/:id).  Lookup
(with replies included for the count), author-or-admin check, audit write
*before* the destroy, then the destroy, whose CASCADE removes the replies. -/
def deleteComment (s : Store) (user : Caller) (req : ReqCtx) (id : Nat) :
    Except CommentErr Unit × Store :=
  match s.comments.find? (fun c => c.id == id) with
  | none => (.error .commentNotFound, s)
  | some comment =>
    if comment.userId ≠ user.id ∧ user.role ≠ "admin" then
      (.error .forbidden, s)
    else
      let repliesCount := (s.comments.filter (fun c => c.parentId == some id)).length
      let s1 := (createLog s "DELETE_COMMENT" "Commentaire supprime" "comment"
        comment.id
        (some (.deletedComment comment.id comment.entityType comment.entityId
          comment.comment repliesCount))
        none user.id req).snd
      let dead := cascadeIds s1.comments.length s1.comments [id]
      let s2 := { s1 with comments := s1.comments.filter (fun c => !(dead.contains c.id)) }
      (.ok (), s2)

/-- Outcome of JWT extraction and verification in the auth middleware
(`protect`): the token is absent, fails verification, is expired, or decodes
to a user id.  The JWT mechanics themselves are an out-of-scope collaborator;
this is its interface. -/
inductive TokenState where
  | missing
  | invalid
  | expired
  | valid (userId : Nat)
deriving DecidableEq

/-- A row of the `users` table, restricted to what `protect` reads. -/
structure AuthUser where
  id : Nat
  role : String
  isActive : Bool
deriving DecidableEq

/-- The distinct rejection sites of the `protect` middleware. -/
inductive AuthErr where
  | tokenMissing
  | tokenInvalid
  | tokenExpired
  | userNotFound
  | accountDisabled
deriving DecidableEq

/-- HTTP status each `protect` rejection site responds with. -/
def authStatus : AuthErr → Nat
  | .tokenMissing => 401
  | .tokenInvalid => 401
  | .tokenExpired => 401
  | .userNotFound => 401
  | .accountDisabled => 403

/-- middleware `protect`: verify the bearer token, load the user, reject
disabled accounts; on success the user is attached to the request
(`.ok u` ↔ `next()` is called, i.e. the business logic is reached). -/
def protect (token : TokenState) (users : List AuthUser) : Except AuthErr AuthUser :=
  match token with
  | .missing => .error .tokenMissing
  | .invalid => .error .tokenInvalid
  | .expired => .error .tokenExpired
  | .valid userId =>
    match users.find? (fun u => u.id == userId) with
    | none => .error .userNotFound
    | some u =>
      if !u.isActive then .error .accountDisabled
      else .ok u

/-- A row of the `teams` table, restricted to what `sendInvitation` reads. -/
structure TeamRec where
  id : Nat
  managerId : Nat
deriving DecidableEq

/-- The four states of a team invitation. -/
inductive InvStatus where
  | pending
  | accepted
  | declined
  | cancelled
deriving DecidableEq

/-- A row of the `team_invitations` table. -/
structure InvitationRec where
  id : Nat
  teamId : Nat
  userId : Nat
  invitedBy : Nat
  role : String
  status : InvStatus
deriving DecidableEq

/-- The store the team controller operates on: teams, users (id and global
role), team membership pairs `(teamId, userId)`, invitations, and the
invitation autoincrement counter. -/
structure TeamStore where
  teams : List TeamRec
  users : List AuthUser
  members : List (Nat × Nat)
  invitations : List InvitationRec
  nextInvitationId : Nat
deriving DecidableEq

/-- The distinct error return sites of `sendInvitation`. -/
inductive InviteErr where
  | teamNotFound
  | noTeam
  | userNotFound
  | notConsultant
  | alreadyMember
  | conflict
deriving DecidableEq

/-- HTTP status each `sendInvitation` error site responds with. -/
def inviteStatusCode : InviteErr → Nat
  | .teamNotFound => 404
  | .noTeam => 400
  | .userNotFound => 404
  | .notConsultant => 400
  | .alreadyMember => 400
  | .conflict => 400

/-- `role || 'member'`: JavaScript falsiness of an optional string field. -/
def roleOrMember : Option String → String
  | some r => if r = "" then "member" else r
  | none => "member"

/-- Team resolution at the top of `sendInvitation`: an explicit (truthy)
`teamId` must name a team managed by the caller; otherwise fall back to the
caller's first team. -/
def resolveTeam (s : TeamStore) (callerId : Nat) (teamId : Option Nat) :
    Except InviteErr TeamRec :=
  match truthyId teamId with
  | some tid =>
    match s.teams.find? (fun t => t.id == tid && t.managerId == callerId) with
    | none => .error .teamNotFound
    | some t => .ok t
  | none =>
    match s.teams.find? (fun t => t.managerId == callerId) with
    | none => .error .noTeam
    | some t => .ok t

/-- teamController `sendInvitation` (POST): resolve the team, check the
target user exists and is a consultant, check they are not already a member
and have no pending invitation for this team, purge any old terminal
(declined/cancelled/accepted) invitation for the pair, then insert a fresh
pending invitation. -/
def sendInvitation (s : TeamStore) (callerId targetUserId : Nat)
    (role : Option String) (teamId : Option Nat) :
    Except InviteErr InvitationRec × TeamStore :=
  match resolveTeam s callerId teamId with
  | .error e => (.error e, s)
  | .ok team =>
    match s.users.find? (fun u => u.id == targetUserId) with
    | none => (.error .userNotFound, s)
    | some targetUser =>
      if targetUser.role ≠ "consultant" then (.error .notConsultant, s)
      else if (s.members.find? (fun m => m.1 == team.id && m.2 == targetUserId)).isSome then
        (.error .alreadyMember, s)
      else if (s.invitations.find? (fun i => i.teamId == team.id && i.userId == targetUserId && i.status == InvStatus.pending)).isSome then
        (.error .conflict, s)
      else
        let purged := s.invitations.filter (fun i => !(i.teamId == team.id && i.userId == targetUserId && (i.status == InvStatus.declined || i.status == InvStatus.cancelled || i.status == InvStatus.accepted)))
        let inv : InvitationRec :=
          { id := s.nextInvitationId, teamId := team.id, userId := targetUserId,
            invitedBy := callerId, role := roleOrMember role, status := .pending }
        (.ok inv, { s with invitations := purged ++ [inv], nextInvitationId := s.nextInvitationId + 1 })

/-- The reply-linkage invariant over a comments table: every comment with a
non-null parent has a parent row with the same `(entityType, entityId)`. -/
def replyLinkage (cs : List CommentRec) : Prop :=
  ∀ c ∈ cs, ∀ pid, c.parentId = some pid →
    ∃ p, p ∈ cs ∧ p.id = pid ∧ p.entityType = c.entityType ∧ p.entityId = c.entityId

/-- The pending invitations an invitations table holds for one
`(teamId, userId)` pair. -/
def pendingFor (invs : List InvitationRec) (tid uid : Nat) : List InvitationRec :=
  invs.filter (fun i => i.teamId == tid && i.userId == uid && i.status == InvStatus.pending)

/-- The single-pending invariant: at most one pending invitation per
`(team, user)` pair. -/
def atMostOnePending (invs : List InvitationRec) : Prop :=
  ∀ tid uid, (pendingFor invs tid uid).length ≤ 1

/-- A convenient concrete base store for witnesses. -/
def baseStore : Store :=
  { projects := [1], documents := [], tasks := [], meetings := [],
    comments := [], logs := [], nextCommentId := 1, nextLogId := 1,
    now := 100, logWriteFails := false, entityReads := [] }

/-- A sample comment authored by user 7 on `(project, 1)`. -/
def sampleComment : CommentRec :=
  { id := 1, entityType := "project", entityId := 1, userId := 7,
    comment := "hi", parentId := none, createdAt := 10 }

/-- A store holding just `sampleComment`. -/
def oneCommentStore : Store := { baseStore with comments := [sampleComment] }

/-- An empty request context. -/
def noCtx : ReqCtx := { ip := none, userAgent := none }

/-- C5: update is author-only.  (1) For every stored comment and every caller
whose id differs from the author's — whatever the caller's role, admin
included — `updateComment` fails with `forbidden` and the store (hence the
comment body) is unchanged.  (2) Whenever `updateComment` succeeds, the
caller is the author. -/
theorem C5_author_only_update :
    (∀ (s : Store) (u : Caller) (req : ReqCtx) (id : Nat) (body : String) (c : CommentRec),
      body ≠ "" →
      s.comments.find? (fun x => x.id == id) = some c →
      c.userId ≠ u.id →
      updateComment s u req id body = (.error .forbidden, s)) ∧
    (∀ (s : Store) (u : Caller) (req : ReqCtx) (id : Nat) (body : String)
        (r : CommentRec) (s' : Store),
      updateComment s u req id body = (.ok r, s') →
      ∃ c, s.comments.find? (fun x => x.id == id) = some c ∧ c.userId = u.id) := by
  constructor
  · intro s u req id body c hbody hfind hne
    simp only [updateComment, if_neg hbody, hfind, if_pos hne]
  · intro s u req id body r s' h
    unfold updateComment at h
    split at h
    · exact absurd (congrArg Prod.fst h) (by simp)
    · split at h
      · exact absurd (congrArg Prod.fst h) (by simp)
      · next c hfind =>
          split at h
          · exact absurd (congrArg Prod.fst h) (by simp)
          · next hne => exact ⟨c, hfind, not_ne_iff.mp hne⟩

/-- C5 witness: a concrete admin caller (id 3) distinct from the author
(id 7) is refused with `forbidden` and the store is untouched. -/
theorem C5_author_only_update_witness :
    ("edited" ≠ "" ∧
      oneCommentStore.comments.find? (fun x => x.id == 1) = some sampleComment ∧
      sampleComment.userId ≠ (3 : Nat)) ∧
    updateComment oneCommentStore { id := 3, role := "admin" } noCtx 1 "edited" =
      (.error .forbidden, oneCommentStore) :=
  ⟨⟨by decide, by decide, by decide⟩,
    C5_author_only_update.1 oneCommentStore { id := 3, role := "admin" } noCtx 1 "edited"
      sampleComment (by decide) (by decide) (by decide)⟩

/-- C6: delete is author-or-admin.  (1) The author may delete.  (2) A caller
who is neither the author nor an admin is refused with `forbidden` and the
store is unchanged.  (3) A non-author admin may delete. -/
theorem C6_author_or_admin_delete :
    (∀ (s : Store) (u : Caller) (req : ReqCtx) (id : Nat) (c : CommentRec),
      s.comments.find? (fun x => x.id == id) = some c →
      u.id = c.userId →
      (deleteComment s u req id).fst = .ok ()) ∧
    (∀ (s : Store) (u : Caller) (req : ReqCtx) (id : Nat) (c : CommentRec),
      s.comments.find? (fun x => x.id == id) = some c →
      c.userId ≠ u.id →
      u.role ≠ "admin" →
      deleteComment s u req id = (.error .forbidden, s)) ∧
    (∀ (s : Store) (u : Caller) (req : ReqCtx) (id : Nat) (c : CommentRec),
      s.comments.find? (fun x => x.id == id) = some c →
      c.userId ≠ u.id →
      u.role = "admin" →
      (deleteComment s u req id).fst = .ok ()) := by
  refine ⟨?_, ?_, ?_⟩
  · intro s u req id c hfind hauthor
    have hcond : ¬ (c.userId ≠ u.id ∧ u.role ≠ "admin") := by
      intro ⟨h1, _⟩; exact h1 hauthor.symm
    simp only [deleteComment, hfind, if_neg hcond]
  · intro s u req id c hfind h1 h2
    simp only [deleteComment, hfind, if_pos (And.intro h1 h2)]
  · intro s u req id c hfind h1 hadmin
    have hcond : ¬ (c.userId ≠ u.id ∧ u.role ≠ "admin") := by
      intro ⟨_, h2⟩; exact h2 hadmin
    simp only [deleteComment, hfind, if_neg hcond]

/-- C6 witness: on a store holding one comment authored by user 7, delete by
the author succeeds, delete by non-author non-admin user 3 is `forbidden`
with no state change, and delete by a non-author admin succeeds. -/
theorem C6_author_or_admin_delete_witness :
    (oneCommentStore.comments.find? (fun x => x.id == 1) = some sampleComment) ∧
    (deleteComment oneCommentStore { id := 7, role := "consultant" } noCtx 1).fst = .ok () ∧
    deleteComment oneCommentStore { id := 3, role := "consultant" } noCtx 1 =
      (.error .forbidden, oneCommentStore) ∧
    (deleteComment oneCommentStore { id := 3, role := "admin" } noCtx 1).fst = .ok () :=
  ⟨by decide,
    C6_author_or_admin_delete.1 oneCommentStore { id := 7, role := "consultant" } noCtx 1
      sampleComment (by decide) (by decide),
    C6_author_or_admin_delete.2.1 oneCommentStore { id := 3, role := "consultant" } noCtx 1
      sampleComment (by decide) (by decide) (by decide),
    C6_author_or_admin_delete.2.2 oneCommentStore { id := 3, role := "admin" } noCtx 1
      sampleComment (by decide) (by decide) (by decide)⟩

/-- C9 counterexample: a valid, non-expired credential resolving to an
inactive user is rejected at the `accountDisabled` site, which responds
with HTTP 403 — the `Forbidden` kind — whereas a missing, invalid or expired
credential responds with 401, the `Unauthorized` kind.  The claim that the
inactive-user rejection carries the same kind as a missing/invalid
credential is therefore false. -/
theorem C9_inactive_user_counterexample :
    protect (.valid 5) [{ id := 5, role := "consultant", isActive := false }] = .error .accountDisabled ∧
    authStatus .accountDisabled = 403 ∧
    authStatus .tokenMissing = 401 ∧
    authStatus .tokenInvalid = 401 ∧
    authStatus .tokenExpired = 401 ∧
    authStatus .accountDisabled ≠ authStatus .tokenMissing := by
  decide

/-- C9 amended: a valid credential resolving to an inactive user is rejected
with the `accountDisabled` error (HTTP 403, the `Forbidden` kind, unlike the
401 `Unauthorized` of missing/invalid/expired credentials), and the request
never reaches the protected business logic (`protect` never returns `.ok`). -/
theorem C9_inactive_user_rejected :
    ∀ (users : List AuthUser) (uid : Nat) (u : AuthUser),
      users.find? (fun x => x.id == uid) = some u →
      u.isActive = false →
      protect (.valid uid) users = .error .accountDisabled ∧
      authStatus .accountDisabled = 403 ∧
      ∀ v, protect (.valid uid) users ≠ .ok v := by
  intro users uid u hfind hinactive
  have hrun : protect (.valid uid) users = .error .accountDisabled := by
    simp only [protect, hfind, hinactive]
    rfl
  exact ⟨hrun, rfl, fun v h => by rw [hrun] at h; exact Except.noConfusion h⟩

/-- C9 witness: the amended theorem applied to a concrete inactive user. -/
theorem C9_inactive_user_rejected_witness :
    (([{ id := 5, role := "consultant", isActive := false }] : List AuthUser).find? (fun x => x.id == 5) = some { id := 5, role := "consultant", isActive := false } ∧
      ({ id := 5, role := "consultant", isActive := false } : AuthUser).isActive = false) ∧
    (protect (.valid 5) [{ id := 5, role := "consultant", isActive := false }] = .error .accountDisabled ∧
      authStatus .accountDisabled = 403 ∧
      ∀ v, protect (.valid 5) [{ id := 5, role := "consultant", isActive := false }] ≠ .ok v) :=
  ⟨⟨by decide, by decide⟩,
    C9_inactive_user_rejected [{ id := 5, role := "consultant", isActive := false }] 5
      { id := 5, role := "consultant", isActive := false } (by decide) (by decide)⟩

/-- C4 counterexample: the empty string is an `entityType` outside the closed
set `{project, document, task, meeting}`, yet `createComment` with it fails
with `validationFailed` (the field-presence check fires first), not with
`invalidEntityType` — so "for every entityType outside the set ... Create
fails with InvalidEntityType" is false as stated.  (Likewise `entityId = 0`
is falsy and trips the presence check.) -/
theorem C4_entity_type_closure_counterexample :
    validEntityTypes.contains "" = false ∧
    createComment baseStore { id := 7, role := "consultant" } noCtx "" 1 "hello" none =
      (.error .validationFailed, baseStore) ∧
    CommentErr.validationFailed ≠ CommentErr.invalidEntityType := by
  refine ⟨by decide, ?_, by decide⟩
  simp [createComment]

/-- C4 amended: entity-type closure.  (1) `getEntityComments` (List) fails
with `invalidEntityType` for every `entityType` outside the closed set and
every `entityId`, with the store returned unchanged — in particular the
`entityReads` trace is unchanged, so no entity lookup happened.  (2) `createComment`
does the same provided the request passes the field-presence check
(`entityType` non-empty, `entityId` nonzero, `comment` non-empty).  (3) When
the presence check fails instead, `createComment` fails with
`validationFailed`, still before any entity lookup (store unchanged). -/
theorem C4_entity_type_closure :
    (∀ (s : Store) (entityType : String) (entityId : Nat),
      validEntityTypes.contains entityType = false →
      getEntityComments s entityType entityId = (.error .invalidEntityType, s)) ∧
    (∀ (s : Store) (u : Caller) (req : ReqCtx) (entityType : String) (entityId : Nat)
        (body : String) (parentId : Option Nat),
      entityType ≠ "" → entityId ≠ 0 → body ≠ "" →
      validEntityTypes.contains entityType = false →
      createComment s u req entityType entityId body parentId =
        (.error .invalidEntityType, s)) ∧
    (∀ (s : Store) (u : Caller) (req : ReqCtx) (entityType : String) (entityId : Nat)
        (body : String) (parentId : Option Nat),
      entityType = "" ∨ entityId = 0 ∨ body = "" →
      createComment s u req entityType entityId body parentId =
        (.error .validationFailed, s)) := by
  refine ⟨?_, ?_, ?_⟩
  · intro s entityType entityId h
    have hmem : ¬ (validEntityTypes.contains entityType = true) := by
      rw [h]; exact Bool.false_ne_true
    unfold getEntityComments
    rw [if_pos hmem]
  · intro s u req entityType entityId body parentId h1 h2 h3 h4
    have hval : ¬ (entityType = "" ∨ entityId = 0 ∨ body = "") := by
      simp [h1, h2, h3]
    have hmem : ¬ (validEntityTypes.contains entityType = true) := by
      rw [h4]; exact Bool.false_ne_true
    unfold createComment
    rw [if_neg hval, if_pos hmem]
  · intro s u req entityType entityId body parentId h
    unfold createComment
    rw [if_pos h]

/-- C4 witness: List on `entityType = "banana"` fails with
`invalidEntityType`; Create on nonexistent-kind `"meting"` with well-formed
fields fails with `invalidEntityType`; Create with an empty body fails with
`validationFailed`; the store is unchanged each time. -/
theorem C4_entity_type_closure_witness :
    (validEntityTypes.contains "banana" = false ∧
      getEntityComments baseStore "banana" 1 = (.error .invalidEntityType, baseStore)) ∧
    (("meting" : String) ≠ "" ∧ (1 : Nat) ≠ 0 ∧ ("hello" : String) ≠ "" ∧
      validEntityTypes.contains "meting" = false ∧
      createComment baseStore { id := 7, role := "consultant" } noCtx "meting" 1 "hello" none =
        (.error .invalidEntityType, baseStore)) ∧
    createComment baseStore { id := 7, role := "consultant" } noCtx "project" 1 "" none =
      (.error .validationFailed, baseStore) :=
  ⟨⟨by decide, C4_entity_type_closure.1 baseStore "banana" 1 (by decide)⟩,
    ⟨by decide, by decide, by decide, by decide,
      C4_entity_type_closure.2.1 baseStore { id := 7, role := "consultant" } noCtx
        "meting" 1 "hello" none (by decide) (by decide) (by decide) (by decide)⟩,
    C4_entity_type_closure.2.2 baseStore { id := 7, role := "consultant" } noCtx
      "project" 1 "" none (Or.inr (Or.inr rfl))⟩

/-- The audit write never touches the comments table, whether or not the
log-write dependency is up. -/
theorem createLog_comments (s : Store) (a d et : String) (eid : Nat)
    (ov nv : Option Snapshot) (pb : Nat) (req : ReqCtx) :
    ((createLog s a d et eid ov nv pb req).snd).comments = s.comments := by
  unfold createLog
  split <;> rfl

/-- Appending a comment whose parent link is resolved inside `cs` preserves
the reply-linkage invariant. -/
theorem replyLinkage_append (cs : List CommentRec) (c : CommentRec)
    (hinv : replyLinkage cs)
    (hc : ∀ pid, c.parentId = some pid →
      ∃ p, p ∈ cs ∧ p.id = pid ∧ p.entityType = c.entityType ∧ p.entityId = c.entityId) :
    replyLinkage (cs ++ [c]) := by
  intro x hx pid hpid
  rcases List.mem_append.mp hx with hxs | hxc
  · obtain ⟨p, hp, hpid2, hpe, hpi⟩ := hinv x hxs pid hpid
    exact ⟨p, List.mem_append_left _ hp, hpid2, hpe, hpi⟩
  · have hxc : x = c := by simpa using hxc
    subst hxc
    obtain ⟨p, hp, hpid2, hpe, hpi⟩ := hc pid hpid
    exact ⟨p, List.mem_append_left _ hp, hpid2, hpe, hpi⟩

/-- C1 counterexample: the request may supply `parentId = 0`.  No comment
with id `0` exists in the (empty) comments table, yet `createComment` does
not fail with `parentNotFound`: JavaScript truthiness (`if (parentId)`,
`parentId || null`) treats `0` as absent, so the comment is persisted as
top-level.  The claim "if no comment with that id exists the operation fails
with NotFound" is therefore false at `parentId = 0`. -/
theorem C1_parent_zero_counterexample :
    baseStore.comments.find? (fun c => c.id == 0) = none ∧
    (createComment baseStore { id := 7, role := "consultant" } noCtx "project" 1 "hello" (some 0)).fst =
      .ok { id := 1, entityType := "project", entityId := 1, userId := 7,
            comment := "hello", parentId := none, createdAt := 100 } ∧
    (createComment baseStore { id := 7, role := "consultant" } noCtx "project" 1 "hello" (some 0)).fst ≠
      .error .parentNotFound := by
  decide

/-- C1 amended: reply linkage, for truthy (nonzero) parent ids.  (1) If the
request supplies a nonzero `parentId` and no comment with that id exists,
creation fails with `parentNotFound` and the comments table is unchanged.
(2) If the parent exists but its `(entityType, entityId)` differs from the
request's, creation fails with `invalidReference` and the comments table is
unchanged.  (3) `createComment` preserves the invariant that every persisted
comment with a non-null `parentId` has a parent with identical
`(entityType, entityId)`.  (A supplied `parentId = 0` is treated as absent
and yields a top-level comment.) -/
theorem C1_reply_linkage :
    (∀ (s : Store) (u : Caller) (req : ReqCtx) (entityType : String) (entityId : Nat)
        (body : String) (pid : Nat),
      pid ≠ 0 → entityType ≠ "" → entityId ≠ 0 → body ≠ "" →
      validEntityTypes.contains entityType = true →
      entityCheck s entityType entityId = true →
      s.comments.find? (fun c => c.id == pid) = none →
      (createComment s u req entityType entityId body (some pid)).fst = .error .parentNotFound ∧
      ((createComment s u req entityType entityId body (some pid)).snd).comments = s.comments) ∧
    (∀ (s : Store) (u : Caller) (req : ReqCtx) (entityType : String) (entityId : Nat)
        (body : String) (pid : Nat) (parent : CommentRec),
      pid ≠ 0 → entityType ≠ "" → entityId ≠ 0 → body ≠ "" →
      validEntityTypes.contains entityType = true →
      entityCheck s entityType entityId = true →
      s.comments.find? (fun c => c.id == pid) = some parent →
      (parent.entityType ≠ entityType ∨ parent.entityId ≠ entityId) →
      (createComment s u req entityType entityId body (some pid)).fst = .error .invalidReference ∧
      ((createComment s u req entityType entityId body (some pid)).snd).comments = s.comments) ∧
    (∀ (s : Store) (u : Caller) (req : ReqCtx) (entityType : String) (entityId : Nat)
        (body : String) (parentId : Option Nat),
      replyLinkage s.comments →
      replyLinkage ((createComment s u req entityType entityId body parentId).snd).comments) := by
  refine ⟨?_, ?_, ?_⟩
  · intro s u req entityType entityId body pid hpid h1 h2 h3 hct hE hfind
    have hval : ¬ (entityType = "" ∨ entityId = 0 ∨ body = "") := by simp [h1, h2, h3]
    have htr : truthyId (some pid) = some pid := by simp [truthyId, hpid]
    simp only [createComment, findEntity, if_neg hval, not_not_intro hct, if_neg, htr, hE,
      not_true, ite_false, hfind]
    exact ⟨trivial, trivial⟩
  · intro s u req entityType entityId body pid parent hpid h1 h2 h3 hct hE hfind hmis
    have hval : ¬ (entityType = "" ∨ entityId = 0 ∨ body = "") := by simp [h1, h2, h3]
    have htr : truthyId (some pid) = some pid := by simp [truthyId, hpid]
    simp only [createComment, findEntity, if_neg hval, not_not_intro hct, if_neg, htr, hE,
      not_true, ite_false, hfind, if_pos hmis]
    exact ⟨trivial, trivial⟩
  · intro s u req entityType entityId body parentId hinv
    simp only [createComment, findEntity]
    split
    · exact hinv
    split
    · exact hinv
    split
    · exact hinv
    split
    · next pid heq =>
        split
        · exact hinv
        · next parent hfind =>
            split
            · exact hinv
            · next hmis =>
                rw [createLog_comments]
                push_neg at hmis
                have hpmem : parent ∈ s.comments := List.mem_of_find?_eq_some hfind
                have hpid : parent.id = pid := by
                  have := List.find?_some hfind
                  simpa using this
                refine replyLinkage_append _ _ hinv ?_
                intro pid2 hpid2
                rw [heq] at hpid2
                cases hpid2
                exact ⟨parent, hpmem, hpid, hmis.1, hmis.2⟩
    · next heq =>
        rw [createLog_comments]
        refine replyLinkage_append _ _ hinv ?_
        intro pid2 hpid2
        rw [heq] at hpid2
        cases hpid2

/-- C1 witness: on a store whose only comment sits on `(project, 1)`,
replying with a dangling nonzero parent id fails with `parentNotFound`;
replying from `(task, 9)` to that comment fails with `invalidReference`;
and creation preserves the reply-linkage invariant on the concrete store. -/
theorem C1_reply_linkage_witness :
    ((createComment { oneCommentStore with tasks := [9] } { id := 3, role := "consultant" } noCtx "project" 1 "re" (some 5)).fst = .error .parentNotFound ∧
      ((createComment { oneCommentStore with tasks := [9] } { id := 3, role := "consultant" } noCtx "project" 1 "re" (some 5)).snd).comments = ({ oneCommentStore with tasks := [9] } : Store).comments) ∧
    ((createComment { oneCommentStore with tasks := [9] } { id := 3, role := "consultant" } noCtx "task" 9 "re" (some 1)).fst = .error .invalidReference ∧
      ((createComment { oneCommentStore with tasks := [9] } { id := 3, role := "consultant" } noCtx "task" 9 "re" (some 1)).snd).comments = ({ oneCommentStore with tasks := [9] } : Store).comments) ∧
    replyLinkage ((createComment { oneCommentStore with tasks := [9] } { id := 3, role := "consultant" } noCtx "project" 1 "re" (some 1)).snd).comments :=
  ⟨C1_reply_linkage.1 _ { id := 3, role := "consultant" } noCtx "project" 1 "re" 5
      (by decide) (by decide) (by decide) (by decide) (by decide) (by decide) (by decide),
    C1_reply_linkage.2.1 _ { id := 3, role := "consultant" } noCtx "task" 9 "re" 1 sampleComment
      (by decide) (by decide) (by decide) (by decide) (by decide) (by decide) (by decide)
      (Or.inl (by decide)),
    C1_reply_linkage.2.2 _ { id := 3, role := "consultant" } noCtx "project" 1 "re" (some 1)
      (by intro c hc pid hpid; simp [oneCommentStore, baseStore, sampleComment] at hc; simp [hc] at hpid)⟩

/-- C2: audit writes are best-effort and non-blocking.  (1) When the
log-write dependency is down, `createLog` swallows the error, returns `null`
and leaves the store untouched.  (2) `createComment` with satisfied
preconditions, (3) `updateComment` by the author, and (4) `deleteComment` by
an authorized caller all still return success with their business state
change applied, while no log row is written. -/
theorem C2_audit_non_blocking :
    (∀ (s : Store) (a d et : String) (eid : Nat) (ov nv : Option Snapshot)
        (pb : Nat) (req : ReqCtx),
      s.logWriteFails = true →
      createLog s a d et eid ov nv pb req = (none, s)) ∧
    (∀ (s : Store) (u : Caller) (req : ReqCtx) (entityType : String) (entityId : Nat)
        (body : String) (parentId : Option Nat),
      s.logWriteFails = true →
      entityType ≠ "" → entityId ≠ 0 → body ≠ "" →
      validEntityTypes.contains entityType = true →
      entityCheck s entityType entityId = true →
      (truthyId parentId = none ∨
        ∃ parent, s.comments.find? (fun c => c.id == (truthyId parentId).getD 0) = some parent ∧
          parent.entityType = entityType ∧ parent.entityId = entityId) →
      (createComment s u req entityType entityId body parentId).fst =
        .ok { id := s.nextCommentId, entityType := entityType, entityId := entityId, userId := u.id, comment := body, parentId := truthyId parentId, createdAt := s.now } ∧
      ((createComment s u req entityType entityId body parentId).snd).comments =
        s.comments ++ [{ id := s.nextCommentId, entityType := entityType, entityId := entityId, userId := u.id, comment := body, parentId := truthyId parentId, createdAt := s.now }] ∧
      ((createComment s u req entityType entityId body parentId).snd).logs = s.logs) ∧
    (∀ (s : Store) (u : Caller) (req : ReqCtx) (id : Nat) (body : String) (c : CommentRec),
      s.logWriteFails = true →
      body ≠ "" →
      s.comments.find? (fun x => x.id == id) = some c →
      c.userId = u.id →
      (updateComment s u req id body).fst = .ok { c with comment := body } ∧
      ((updateComment s u req id body).snd).comments =
        s.comments.map (fun x => if x.id == id then { x with comment := body } else x) ∧
      ((updateComment s u req id body).snd).logs = s.logs) ∧
    (∀ (s : Store) (u : Caller) (req : ReqCtx) (id : Nat) (c : CommentRec),
      s.logWriteFails = true →
      s.comments.find? (fun x => x.id == id) = some c →
      (u.id = c.userId ∨ u.role = "admin") →
      (deleteComment s u req id).fst = .ok () ∧
      ((deleteComment s u req id).snd).comments =
        s.comments.filter (fun x => !((cascadeIds s.comments.length s.comments [id]).contains x.id)) ∧
      ((deleteComment s u req id).snd).logs = s.logs) := by
  refine ⟨?_, ?_, ?_, ?_⟩
  · intro s a d et eid ov nv pb req hfail
    unfold createLog
    rw [if_pos hfail]
  · intro s u req entityType entityId body parentId hfail h1 h2 h3 hct hE hpar
    have hval : ¬ (entityType = "" ∨ entityId = 0 ∨ body = "") := by simp [h1, h2, h3]
    rcases hpar with htr | ⟨parent, hfind, hpe, hpi⟩
    · simp only [createComment, findEntity, createLog, if_neg hval, not_not_intro hct, if_neg,
        hE, not_true, ite_false, htr, hfail, ite_true]
      refine ⟨?_, ?_, ?_⟩ <;> trivial
    · cases htr : truthyId parentId with
      | none =>
        simp only [createComment, findEntity, createLog, if_neg hval, not_not_intro hct, if_neg,
          hE, not_true, ite_false, htr, hfail, ite_true]
        refine ⟨?_, ?_, ?_⟩ <;> trivial
      | some pid =>
        rw [htr] at hfind
        simp only [Option.getD] at hfind
        have hmis : ¬ (parent.entityType ≠ entityType ∨ parent.entityId ≠ entityId) := by
          simp [hpe, hpi]
        simp only [createComment, findEntity, createLog, if_neg hval, not_not_intro hct, if_neg,
          hE, not_true, ite_false, htr, hfind, if_neg hmis, hfail, ite_true]
        refine ⟨?_, ?_, ?_⟩ <;> trivial
  · intro s u req id body c hfail hbody hfind hauthor
    have hne : ¬ (c.userId ≠ u.id) := not_ne_iff.mpr hauthor
    simp only [updateComment, createLog, if_neg hbody, hfind, if_neg hne, hfail, ite_true]
    refine ⟨?_, ?_, ?_⟩ <;> trivial
  · intro s u req id c hfail hfind hauth
    have hcond : ¬ (c.userId ≠ u.id ∧ u.role ≠ "admin") := by
      rcases hauth with h | h
      · intro ⟨h1, _⟩; exact h1 h.symm
      · intro ⟨_, h2⟩; exact h2 h
    simp only [deleteComment, createLog, hfind, if_neg hcond, hfail, ite_true]
    refine ⟨?_, ?_, ?_⟩ <;> trivial

/-- C2 witness: with the log dependency down over a one-comment store, the
logger returns `null` and the three comment mutations still succeed with
their state changes applied and no log row written. -/
theorem C2_audit_non_blocking_witness :
    createLog { oneCommentStore with logWriteFails := true } "X" "d" "comment" 1 none none 7 noCtx =
      (none, { oneCommentStore with logWriteFails := true }) ∧
    (createComment { oneCommentStore with logWriteFails := true } { id := 3, role := "consultant" } noCtx "project" 1 "hello" none).fst =
      .ok { id := 1, entityType := "project", entityId := 1, userId := 3,
            comment := "hello", parentId := none, createdAt := 100 } ∧
    (updateComment { oneCommentStore with logWriteFails := true } { id := 7, role := "consultant" } noCtx 1 "newbody").fst =
      .ok { sampleComment with comment := "newbody" } ∧
    (deleteComment { oneCommentStore with logWriteFails := true } { id := 7, role := "consultant" } noCtx 1).fst = .ok () ∧
    ((deleteComment { oneCommentStore with logWriteFails := true } { id := 7, role := "consultant" } noCtx 1).snd).logs = oneCommentStore.logs :=
  ⟨C2_audit_non_blocking.1 _ "X" "d" "comment" 1 none none 7 noCtx (by decide),
    (C2_audit_non_blocking.2.1 { oneCommentStore with logWriteFails := true }
      { id := 3, role := "consultant" } noCtx "project" 1 "hello" none
      (by decide) (by decide) (by decide) (by decide) (by decide) (by decide)
      (Or.inl (by decide))).1,
    (C2_audit_non_blocking.2.2.1 { oneCommentStore with logWriteFails := true }
      { id := 7, role := "consultant" } noCtx 1 "newbody" sampleComment
      (by decide) (by decide) (by decide) (by decide)).1,
    (C2_audit_non_blocking.2.2.2 { oneCommentStore with logWriteFails := true }
      { id := 7, role := "consultant" } noCtx 1 sampleComment
      (by decide) (by decide) (Or.inl (by decide))).1,
    (C2_audit_non_blocking.2.2.2 { oneCommentStore with logWriteFails := true }
      { id := 7, role := "consultant" } noCtx 1 sampleComment
      (by decide) (by decide) (Or.inl (by decide))).2.2⟩

/-- C8: single pending invitation per `(team, user)` pair.  (1) Issuing an
invite while one is pending fails with the duplicate-pending error (`conflict`)
and the store is unchanged.  (2) Issuing when no pending invitation exists
for the pair succeeds, the freshly created invitation is the *only* record
for the pair in the resulting store (any old terminal record was purged) and
it is pending.  (3) `sendInvitation` preserves the at-most-one-pending
invariant. -/
theorem C8_invitation_single_pending :
    (∀ (s : TeamStore) (callerId target : Nat) (role : Option String)
        (teamId : Option Nat) (team : TeamRec) (tu : AuthUser),
      resolveTeam s callerId teamId = .ok team →
      s.users.find? (fun u => u.id == target) = some tu →
      tu.role = "consultant" →
      s.members.find? (fun m => m.1 == team.id && m.2 == target) = none →
      (s.invitations.find? (fun i => i.teamId == team.id && i.userId == target && i.status == InvStatus.pending)).isSome = true →
      sendInvitation s callerId target role teamId = (.error .conflict, s)) ∧
    (∀ (s : TeamStore) (callerId target : Nat) (role : Option String)
        (teamId : Option Nat) (team : TeamRec) (tu : AuthUser),
      resolveTeam s callerId teamId = .ok team →
      s.users.find? (fun u => u.id == target) = some tu →
      tu.role = "consultant" →
      s.members.find? (fun m => m.1 == team.id && m.2 == target) = none →
      s.invitations.find? (fun i => i.teamId == team.id && i.userId == target && i.status == InvStatus.pending) = none →
      (sendInvitation s callerId target role teamId).fst =
        .ok { id := s.nextInvitationId, teamId := team.id, userId := target, invitedBy := callerId, role := roleOrMember role, status := .pending } ∧
      ({ id := s.nextInvitationId, teamId := team.id, userId := target, invitedBy := callerId, role := roleOrMember role, status := .pending } : InvitationRec) ∈ ((sendInvitation s callerId target role teamId).snd).invitations ∧
      (∀ i ∈ ((sendInvitation s callerId target role teamId).snd).invitations,
        i.teamId = team.id → i.userId = target →
        i = { id := s.nextInvitationId, teamId := team.id, userId := target, invitedBy := callerId, role := roleOrMember role, status := .pending })) ∧
    (∀ (s : TeamStore) (callerId target : Nat) (role : Option String) (teamId : Option Nat),
      atMostOnePending s.invitations →
      atMostOnePending ((sendInvitation s callerId target role teamId).snd).invitations) := by
  refine ⟨?_, ?_, ?_⟩
  · intro s callerId target role teamId team tu hteam hfindu hrole hmem hpend
    have hrole' : ¬ (tu.role ≠ "consultant") := not_ne_iff.mpr hrole
    simp only [sendInvitation, hteam, hfindu, if_neg hrole', hmem, Option.isSome_none,
      Bool.false_eq_true, if_false, hpend, if_true]
  · intro s callerId target role teamId team tu hteam hfindu hrole hmem hpend
    have hrole' : ¬ (tu.role ≠ "consultant") := not_ne_iff.mpr hrole
    have hpend' : (s.invitations.find? (fun i => i.teamId == team.id && i.userId == target && i.status == InvStatus.pending)).isSome = false := by
      rw [hpend]; rfl
    have hnopend : ∀ i ∈ s.invitations,
        ¬ (i.teamId == team.id && i.userId == target && i.status == InvStatus.pending) = true :=
      fun i hi => by
        have := List.find?_eq_none.mp hpend i hi
        simpa using this
    simp only [sendInvitation, hteam, hfindu, if_neg hrole', hmem, Option.isSome_none,
      Bool.false_eq_true, if_false, hpend', reduceIte]
    refine ⟨trivial, ?_, ?_⟩
    · exact List.mem_append_right _ (List.mem_singleton_self _)
    · intro i hi hit hiu
      rcases List.mem_append.mp hi with hp | hlast
      · have hmemfil := List.mem_filter.mp hp
        obtain ⟨himem, hpred⟩ := hmemfil
        exfalso
        have hterm : (i.status == InvStatus.declined || i.status == InvStatus.cancelled || i.status == InvStatus.accepted) = false := by
          by_contra hterm
          have hterm' : (i.status == InvStatus.declined || i.status == InvStatus.cancelled || i.status == InvStatus.accepted) = true := by
            revert hterm
            cases (i.status == InvStatus.declined || i.status == InvStatus.cancelled || i.status == InvStatus.accepted) <;> simp
          have : (i.teamId == team.id && i.userId == target && (i.status == InvStatus.declined || i.status == InvStatus.cancelled || i.status == InvStatus.accepted)) = true := by
            simp [hit, hiu, hterm']
          simp [this] at hpred
        have hpending : i.status = InvStatus.pending := by
          cases hstat : i.status <;> rw [hstat] at hterm <;> first | rfl | simp at hterm
        exact hnopend i himem (by simp [hit, hiu, hpending])
      · simpa using hlast
  · intro s callerId target role teamId hinv
    unfold sendInvitation
    split
    · exact hinv
    · next team hteam =>
        split
        · exact hinv
        · next tu hfindu =>
            split
            · exact hinv
            split
            · exact hinv
            split
            · exact hinv
            · next hpendcond =>
                have hpend : s.invitations.find? (fun i => i.teamId == team.id && i.userId == target && i.status == InvStatus.pending) = none := by
                  rcases h : s.invitations.find? (fun i => i.teamId == team.id && i.userId == target && i.status == InvStatus.pending) with _ | v
                  · exact h
                  · rw [h] at hpendcond; simp at hpendcond
                have hnopend : ∀ i ∈ s.invitations,
                    ¬ (i.teamId == team.id && i.userId == target && i.status == InvStatus.pending) = true :=
                  fun i hi => by
                    have := List.find?_eq_none.mp hpend i hi
                    simpa using this
                intro tid uid
                simp only [pendingFor, List.filter_append]
                rw [List.length_append]
                by_cases hpair : tid = team.id ∧ uid = target
                · have hpurged : (List.filter (fun i => i.teamId == tid && i.userId == uid && i.status == InvStatus.pending) (List.filter (fun i => !(i.teamId == team.id && i.userId == target && (i.status == InvStatus.declined || i.status == InvStatus.cancelled || i.status == InvStatus.accepted))) s.invitations)).length = 0 := by
                    rw [List.length_eq_zero]
                    rw [List.filter_eq_nil_iff]
                    intro i hi
                    have himem : i ∈ s.invitations := List.mem_of_mem_filter hi
                    have := hnopend i himem
                    rw [hpair.1, hpair.2]
                    exact fun hcon => this hcon
                  rw [hpurged]
                  have : (List.filter (fun i => i.teamId == tid && i.userId == uid && i.status == InvStatus.pending) [({ id := s.nextInvitationId, teamId := team.id, userId := target, invitedBy := callerId, role := roleOrMember role, status := InvStatus.pending } : InvitationRec)]).length ≤ 1 := by
                    simp [List.filter]
                    split <;> simp
                  omega
                · have hlast : (List.filter (fun i => i.teamId == tid && i.userId == uid && i.status == InvStatus.pending) [({ id := s.nextInvitationId, teamId := team.id, userId := target, invitedBy := callerId, role := roleOrMember role, status := InvStatus.pending } : InvitationRec)]).length = 0 := by
                    rw [List.length_eq_zero, List.filter_eq_nil_iff]
                    intro i hi
                    have hival : i = ({ id := s.nextInvitationId, teamId := team.id, userId := target, invitedBy := callerId, role := roleOrMember role, status := InvStatus.pending } : InvitationRec) := by simpa using hi
                    subst hival
                    simp only [Bool.and_eq_true, beq_iff_eq]
                    intro hcon
                    exact hpair ⟨hcon.1.1.symm, hcon.1.2.symm⟩
                  rw [hlast]
                  have hsub : (List.filter (fun i => i.teamId == tid && i.userId == uid && i.status == InvStatus.pending) (List.filter (fun i => !(i.teamId == team.id && i.userId == target && (i.status == InvStatus.declined || i.status == InvStatus.cancelled || i.status == InvStatus.accepted))) s.invitations)).length ≤ (pendingFor s.invitations tid uid).length := by
                    apply List.Sublist.length_le
                    exact List.Sublist.filter _ (List.filter_sublist _)
                  have := hinv tid uid
                  omega

/-- A concrete team store: team 1 managed by user 10, consultant user 5. -/
def teamBase : TeamStore :=
  { teams := [{ id := 1, managerId := 10 }],
    users := [{ id := 5, role := "consultant", isActive := true }],
    members := [], invitations := [], nextInvitationId := 2 }

/-- C8 witness: with a pending invitation for `(team 1, user 5)` on record, a
second invite is refused with `conflict` and nothing changes; with only a
declined invitation on record, a new invite succeeds as the fresh pending
record; and the at-most-one-pending invariant is preserved on the concrete
store. -/
theorem C8_invitation_single_pending_witness :
    sendInvitation { teamBase with invitations := [{ id := 1, teamId := 1, userId := 5, invitedBy := 10, role := "member", status := .pending }] } 10 5 none (some 1) =
      (.error .conflict, { teamBase with invitations := [{ id := 1, teamId := 1, userId := 5, invitedBy := 10, role := "member", status := .pending }] }) ∧
    (sendInvitation { teamBase with invitations := [{ id := 1, teamId := 1, userId := 5, invitedBy := 10, role := "member", status := .declined }] } 10 5 none (some 1)).fst =
      .ok { id := 2, teamId := 1, userId := 5, invitedBy := 10, role := "member", status := .pending } ∧
    ({ id := 2, teamId := 1, userId := 5, invitedBy := 10, role := "member", status := .pending } : InvitationRec) ∈
      ((sendInvitation { teamBase with invitations := [{ id := 1, teamId := 1, userId := 5, invitedBy := 10, role := "member", status := .declined }] } 10 5 none (some 1)).snd).invitations ∧
    atMostOnePending ((sendInvitation { teamBase with invitations := [{ id := 1, teamId := 1, userId := 5, invitedBy := 10, role := "member", status := .declined }] } 10 5 none (some 1)).snd).invitations := by
  refine ⟨?_, ?_, ?_, ?_⟩
  · exact C8_invitation_single_pending.1 _ 10 5 none (some 1)
      { id := 1, managerId := 10 } { id := 5, role := "consultant", isActive := true }
      (by decide) (by decide) (by decide) (by decide) (by decide)
  · exact (C8_invitation_single_pending.2.1 _ 10 5 none (some 1)
      { id := 1, managerId := 10 } { id := 5, role := "consultant", isActive := true }
      (by decide) (by decide) (by decide) (by decide) (by decide)).1
  · exact (C8_invitation_single_pending.2.1 _ 10 5 none (some 1)
      { id := 1, managerId := 10 } { id := 5, role := "consultant", isActive := true }
      (by decide) (by decide) (by decide) (by decide) (by decide)).2.1
  · exact C8_invitation_single_pending.2.2 _ 10 5 none (some 1)
      (by
        intro tid uid
        have h : (InvStatus.declined == InvStatus.pending) = false := by decide
        simp [pendingFor, teamBase, List.filter, h])

/-- C3 code bug, evaluated at the failing input.  The source writes
`order: [['createdAt', 'ASC']]` inside the non-separate `replies` include —
with the inline comment promising replies oldest-first — but Sequelize 6
silently ignores include-level `order` on a joined include, so the program
does not sort a parent's replies; they arrive in unspecified join order
(table order in this embedding).  Concretely: (1) top-level comments
created at 10 < 20 < 30 do come back newest-first, [30, 20, 10] — the
root-level `order` is honored, so that half of the claim holds; (2) replies
created at 20 < 30 but joined newest-first come back [30, 20], not the
[20, 30] the claim asserts, and [30, 20] differs from the claimed
chronological order. -/
theorem C3_reply_order_not_guaranteed :
    (getEntityComments { baseStore with comments := [{ id := 1, entityType := "project", entityId := 1, userId := 7, comment := "one", parentId := none, createdAt := 10 }, { id := 2, entityType := "project", entityId := 1, userId := 7, comment := "two", parentId := none, createdAt := 20 }, { id := 3, entityType := "project", entityId := 1, userId := 7, comment := "three", parentId := none, createdAt := 30 }] } "project" 1).fst =
      .ok { threads := [{ comment := { id := 3, entityType := "project", entityId := 1, userId := 7, comment := "three", parentId := none, createdAt := 30 }, replies := [] }, { comment := { id := 2, entityType := "project", entityId := 1, userId := 7, comment := "two", parentId := none, createdAt := 20 }, replies := [] }, { comment := { id := 1, entityType := "project", entityId := 1, userId := 7, comment := "one", parentId := none, createdAt := 10 }, replies := [] }], total := 3, topLevel := 3 } ∧
    (getEntityComments { baseStore with comments := [{ id := 1, entityType := "project", entityId := 1, userId := 7, comment := "p", parentId := none, createdAt := 10 }, { id := 3, entityType := "project", entityId := 1, userId := 4, comment := "r2", parentId := some 1, createdAt := 30 }, { id := 2, entityType := "project", entityId := 1, userId := 3, comment := "r1", parentId := some 1, createdAt := 20 }] } "project" 1).fst =
      .ok { threads := [{ comment := { id := 1, entityType := "project", entityId := 1, userId := 7, comment := "p", parentId := none, createdAt := 10 }, replies := [{ id := 3, entityType := "project", entityId := 1, userId := 4, comment := "r2", parentId := some 1, createdAt := 30 }, { id := 2, entityType := "project", entityId := 1, userId := 3, comment := "r1", parentId := some 1, createdAt := 20 }] }], total := 3, topLevel := 1 } ∧
    ({ id := 2, entityType := "project", entityId := 1, userId := 3, comment := "r1", parentId := some 1, createdAt := 20 } : CommentRec).createdAt <
      ({ id := 3, entityType := "project", entityId := 1, userId := 4, comment := "r2", parentId := some 1, createdAt := 30 } : CommentRec).createdAt ∧
    ([{ id := 3, entityType := "project", entityId := 1, userId := 4, comment := "r2", parentId := some 1, createdAt := 30 }, { id := 2, entityType := "project", entityId := 1, userId := 3, comment := "r1", parentId := some 1, createdAt := 20 }] : List CommentRec) ≠
      [{ id := 2, entityType := "project", entityId := 1, userId := 3, comment := "r1", parentId := some 1, createdAt := 20 }, { id := 3, entityType := "project", entityId := 1, userId := 4, comment := "r2", parentId := some 1, createdAt := 30 }] := by
  decide

/-- Ids already dead stay dead through the cascade iteration. -/
theorem mem_cascadeIds_of_mem (n : Nat) (cs : List CommentRec) (dead : List Nat)
    (x : Nat) (hx : x ∈ dead) : x ∈ cascadeIds n cs dead := by
  induction n generalizing dead with
  | zero => exact hx
  | succ m ih => exact ih _ (List.mem_append_left _ hx)

/-- A comment whose parent id is dead gets its own id into the cascade
closure (one iteration suffices). -/
theorem child_mem_cascadeIds (n : Nat) (cs : List CommentRec) (dead : List Nat)
    (c : CommentRec) (pid : Nat) (hc : c ∈ cs) (hp : c.parentId = some pid)
    (hpd : pid ∈ dead) (hn : 1 ≤ n) : c.id ∈ cascadeIds n cs dead := by
  cases n with
  | zero => exact absurd hn (by omega)
  | succ m =>
    have hstep : cascadeIds (m + 1) cs dead =
        cascadeIds m cs (dead ++ (cs.filter (fun x => !(dead.contains x.id) && (match x.parentId with | some p => dead.contains p | none => false))).map (fun x => x.id)) := rfl
    rw [hstep]
    apply mem_cascadeIds_of_mem
    by_cases hcd : c.id ∈ dead
    · exact List.mem_append_left _ hcd
    · refine List.mem_append_right _ ?_
      refine List.mem_map.mpr ⟨c, ?_, rfl⟩
      refine List.mem_filter.mpr ⟨hc, ?_⟩
      rw [hp]
      simp [hcd, hpd]

/-- What a successful `getEntityComments` returns: every thread head is a
top-level comment of the entity drawn from the store, every reply is drawn
from the store and points at its thread head, and the total is the count of
the entity's comments at any depth. -/
theorem getEntityComments_ok_spec (s : Store) (entityType : String) (entityId : Nat)
    (page : CommentsPage) (s2 : Store)
    (h : getEntityComments s entityType entityId = (.ok page, s2)) :
    (∀ t ∈ page.threads,
      (t.comment ∈ s.comments ∧ t.comment.entityType = entityType ∧
        t.comment.entityId = entityId ∧ t.comment.parentId = none) ∧
      ∀ x ∈ t.replies, x ∈ s.comments ∧ x.parentId = some t.comment.id) ∧
    page.total = (s.comments.filter (fun c => c.entityType == entityType && c.entityId == entityId)).length := by
  simp only [getEntityComments] at h
  split at h
  · exact absurd (congrArg Prod.fst h) (by simp)
  · split at h
    · exact absurd (congrArg Prod.fst h) (by simp)
    · have hpage := congrArg Prod.fst h
      simp only at hpage
      have hpg := Except.ok.inj hpage
      rw [← hpg]
      constructor
      · intro t ht
        simp only at ht
        obtain ⟨p, hpmem, hpt⟩ := List.mem_map.mp ht
        have hptops : p ∈ List.filter (fun c => c.entityType == entityType && c.entityId == entityId && c.parentId == none) (findEntity s entityType entityId).2.comments :=
          (List.perm_insertionSort byCreatedAtDesc _).mem_iff.mp hpmem
        have hpfacts := List.mem_filter.mp hptops
        have hpred := hpfacts.2
        simp only [Bool.and_eq_true, beq_iff_eq] at hpred
        subst hpt
        refine ⟨⟨hpfacts.1, hpred.1.1, hpred.1.2, hpred.2⟩, ?_⟩
        intro x hx
        simp only at hx
        have hxfacts := List.mem_filter.mp hx
        have hxpred := hxfacts.2
        simp only [beq_iff_eq] at hxpred
        exact ⟨hxfacts.1, hxpred⟩
      · rfl

/-- C7: cascade on delete.  For an authorized delete of a comment: the
operation succeeds; no surviving comment carries the deleted id, points at
the deleted id as parent, or carries the id of any former direct reply of
the deleted comment; and any subsequent successful List shows neither the
deleted comment nor any former reply (at head or reply position) and reports
a total computed over the surviving comments only. -/
theorem C7_cascade_delete :
    ∀ (s : Store) (u : Caller) (req : ReqCtx) (id : Nat) (p : CommentRec),
      s.comments.find? (fun c => c.id == id) = some p →
      (u.id = p.userId ∨ u.role = "admin") →
      (deleteComment s u req id).fst = .ok () ∧
      (∀ c ∈ ((deleteComment s u req id).snd).comments,
        c.id ≠ id ∧ c.parentId ≠ some id ∧
        ∀ r ∈ s.comments, r.parentId = some id → c.id ≠ r.id) ∧
      (∀ (entityType : String) (entityId : Nat) (page : CommentsPage) (s3 : Store),
        getEntityComments ((deleteComment s u req id).snd) entityType entityId = (.ok page, s3) →
        (∀ t ∈ page.threads,
          (t.comment.id ≠ id ∧ ∀ r ∈ s.comments, r.parentId = some id → t.comment.id ≠ r.id) ∧
          ∀ x ∈ t.replies, x.id ≠ id ∧ ∀ r ∈ s.comments, r.parentId = some id → x.id ≠ r.id) ∧
        page.total = (((deleteComment s u req id).snd).comments.filter (fun c => c.entityType == entityType && c.entityId == entityId)).length) := by
  intro s u req id p hfind hauth
  have hcond : ¬ (p.userId ≠ u.id ∧ u.role ≠ "admin") := by
    rcases hauth with h | h
    · intro ⟨h1, _⟩; exact h1 h.symm
    · intro ⟨_, h2⟩; exact h2 h
  have hlen : 1 ≤ s.comments.length :=
    List.length_pos_of_mem (List.mem_of_find?_eq_some hfind)
  have hidin : id ∈ cascadeIds s.comments.length s.comments [id] :=
    mem_cascadeIds_of_mem _ _ _ _ (List.mem_singleton_self id)
  have hsurv : ∀ c ∈ ((deleteComment s u req id).snd).comments,
      c.id ≠ id ∧ c.parentId ≠ some id ∧
      ∀ r ∈ s.comments, r.parentId = some id → c.id ≠ r.id := by
    intro c hc
    simp only [deleteComment, hfind, if_neg hcond, createLog_comments] at hc
    have hcfacts := List.mem_filter.mp hc
    have hcpred := hcfacts.2
    simp only [Bool.not_eq_true'] at hcpred
    have hcnot : c.id ∉ cascadeIds s.comments.length s.comments [id] := by
      intro hmem
      simp [hmem] at hcpred
    refine ⟨?_, ?_, ?_⟩
    · intro heq
      rw [heq] at hcnot
      exact hcnot hidin
    · intro heq
      exact hcnot (child_mem_cascadeIds _ _ _ c id hcfacts.1 heq (List.mem_singleton_self id) hlen)
    · intro r hr hrp heq
      have hrid : r.id ∈ cascadeIds s.comments.length s.comments [id] :=
        child_mem_cascadeIds _ _ _ r id hr hrp (List.mem_singleton_self id) hlen
      rw [heq] at hcnot
      exact hcnot hrid
  refine ⟨?_, hsurv, ?_⟩
  · simp only [deleteComment, hfind, if_neg hcond]
  · intro entityType entityId page s3 hget
    have hspec := getEntityComments_ok_spec _ _ _ _ _ hget
    refine ⟨?_, hspec.2⟩
    intro t ht
    have htfacts := (hspec.1 t ht)
    have hhead := hsurv t.comment htfacts.1.1
    refine ⟨⟨hhead.1, hhead.2.2⟩, ?_⟩
    intro x hx
    have hxmem := (htfacts.2 x hx).1
    have hxsurv := hsurv x hxmem
    exact ⟨hxsurv.1, hxsurv.2.2⟩

/-- C7 witness: deleting the parent comment (id 1, two replies) by its
author succeeds and the surviving comments table is empty — neither the
parent nor any former reply remains, and a subsequent List reports
`total = 0`. -/
theorem C7_cascade_delete_witness :
    (({ baseStore with comments := [sampleComment, { id := 2, entityType := "project", entityId := 1, userId := 3, comment := "r1", parentId := some 1, createdAt := 20 }, { id := 3, entityType := "project", entityId := 1, userId := 4, comment := "r2", parentId := some 1, createdAt := 30 }] } : Store).comments.find? (fun c => c.id == 1) = some sampleComment) ∧
    (deleteComment { baseStore with comments := [sampleComment, { id := 2, entityType := "project", entityId := 1, userId := 3, comment := "r1", parentId := some 1, createdAt := 20 }, { id := 3, entityType := "project", entityId := 1, userId := 4, comment := "r2", parentId := some 1, createdAt := 30 }] } { id := 7, role := "consultant" } noCtx 1).fst = .ok () ∧
    (∀ c ∈ ((deleteComment { baseStore with comments := [sampleComment, { id := 2, entityType := "project", entityId := 1, userId := 3, comment := "r1", parentId := some 1, createdAt := 20 }, { id := 3, entityType := "project", entityId := 1, userId := 4, comment := "r2", parentId := some 1, createdAt := 30 }] } { id := 7, role := "consultant" } noCtx 1).snd).comments, c.id ≠ 1 ∧ c.parentId ≠ some 1 ∧ ∀ r ∈ ({ baseStore with comments := [sampleComment, { id := 2, entityType := "project", entityId := 1, userId := 3, comment := "r1", parentId := some 1, createdAt := 20 }, { id := 3, entityType := "project", entityId := 1, userId := 4, comment := "r2", parentId := some 1, createdAt := 30 }] } : Store).comments, r.parentId = some 1 → c.id ≠ r.id) ∧
    ((deleteComment { baseStore with comments := [sampleComment, { id := 2, entityType := "project", entityId := 1, userId := 3, comment := "r1", parentId := some 1, createdAt := 20 }, { id := 3, entityType := "project", entityId := 1, userId := 4, comment := "r2", parentId := some 1, createdAt := 30 }] } { id := 7, role := "consultant" } noCtx 1).snd).comments = [] :=
  ⟨by decide,
    (C7_cascade_delete _ { id := 7, role := "consultant" } noCtx 1 sampleComment (by decide) (Or.inl (by decide))).1,
    (C7_cascade_delete _ { id := 7, role := "consultant" } noCtx 1 sampleComment (by decide) (Or.inl (by decide))).2.1,
    by decide⟩

/-- C10: depth-2 comments are accepted by Create but invisible to List while
still counted.  (1) `createComment` accepts a `parentId` referencing a
comment that is itself a reply — only existence and same-entity are checked —
and persists the depth-2 comment.  (2) On a store with distinct ids, a
depth-2 comment (its parent is itself a reply) never appears in the tree a
successful List returns, at head or reply position, while the reported total
counts every comment of the entity including it.  (3) Concretely, a store
with one top-level comment, one reply and one depth-2 comment lists a tree
showing 2 comments while `total = 3`. -/
theorem C10_depth2_invisible_but_counted :
    (∀ (s : Store) (u : Caller) (req : ReqCtx) (entityType : String) (entityId : Nat)
        (body : String) (p : CommentRec) (q : Nat),
      entityType ≠ "" → entityId ≠ 0 → body ≠ "" →
      validEntityTypes.contains entityType = true →
      entityCheck s entityType entityId = true →
      p.id ≠ 0 →
      s.comments.find? (fun c => c.id == p.id) = some p →
      p.parentId = some q →
      p.entityType = entityType → p.entityId = entityId →
      (createComment s u req entityType entityId body (some p.id)).fst =
        .ok { id := s.nextCommentId, entityType := entityType, entityId := entityId, userId := u.id, comment := body, parentId := some p.id, createdAt := s.now } ∧
      ({ id := s.nextCommentId, entityType := entityType, entityId := entityId, userId := u.id, comment := body, parentId := some p.id, createdAt := s.now } : CommentRec) ∈
        ((createComment s u req entityType entityId body (some p.id)).snd).comments) ∧
    (∀ (s : Store) (entityType : String) (entityId : Nat) (d r : CommentRec)
        (page : CommentsPage) (s2 : Store),
      (s.comments.map (fun c => c.id)).Nodup →
      d ∈ s.comments → r ∈ s.comments →
      d.parentId = some r.id → r.parentId ≠ none →
      d.entityType = entityType → d.entityId = entityId →
      getEntityComments s entityType entityId = (.ok page, s2) →
      (∀ t ∈ page.threads, t.comment.id ≠ d.id ∧ ∀ x ∈ t.replies, x.id ≠ d.id) ∧
      page.total = (s.comments.filter (fun c => c.entityType == entityType && c.entityId == entityId)).length ∧
      d ∈ s.comments.filter (fun c => c.entityType == entityType && c.entityId == entityId)) ∧
    ((getEntityComments { baseStore with comments := [sampleComment, { id := 2, entityType := "project", entityId := 1, userId := 3, comment := "r", parentId := some 1, createdAt := 20 }, { id := 3, entityType := "project", entityId := 1, userId := 4, comment := "d", parentId := some 2, createdAt := 30 }] } "project" 1).fst =
      .ok { threads := [{ comment := sampleComment, replies := [{ id := 2, entityType := "project", entityId := 1, userId := 3, comment := "r", parentId := some 1, createdAt := 20 }] }], total := 3, topLevel := 1 } ∧
      1 + 1 < 3) := by
  refine ⟨?_, ?_, by decide, by decide⟩
  · intro s u req entityType entityId body p q h1 h2 h3 hct hE hpid hfind hpq hpe hpi
    have hval : ¬ (entityType = "" ∨ entityId = 0 ∨ body = "") := by simp [h1, h2, h3]
    have htr : truthyId (some p.id) = some p.id := by simp [truthyId, hpid]
    have hmis : ¬ (p.entityType ≠ entityType ∨ p.entityId ≠ entityId) := by simp [hpe, hpi]
    simp only [createComment, findEntity, if_neg hval, not_not_intro hct, if_neg, hE,
      not_true, ite_false, htr, hfind, if_neg hmis, createLog_comments]
    constructor
    · trivial
    · exact List.mem_append_right _ (List.mem_singleton_self _)
  · intro s entityType entityId d r page s2 hnodup hd hr hdp hrp hde hdi hget
    have hinj := List.inj_on_of_nodup_map hnodup
    have hspec := getEntityComments_ok_spec _ _ _ _ _ hget
    refine ⟨?_, hspec.2, List.mem_filter.mpr ⟨hd, by simp [hde, hdi]⟩⟩
    intro t ht
    have htfacts := hspec.1 t ht
    constructor
    · intro heq
      have : t.comment = d := hinj htfacts.1.1 hd heq
      rw [this] at htfacts
      rw [hdp] at htfacts
      exact Option.noConfusion htfacts.1.2.2.2
    · intro x hx heq
      have hxfacts := htfacts.2 x hx
      have hxd : x = d := hinj hxfacts.1 hd heq
      rw [hxd] at hxfacts
      rw [hdp] at hxfacts
      have : r.id = t.comment.id := Option.some.inj hxfacts.2
      have hrt : r = t.comment := hinj hr htfacts.1.1 this
      rw [hrt] at hrp
      exact hrp htfacts.1.2.2.2

/-- C10 witness: creating a reply-to-a-reply (parent id 2 is itself a reply)
succeeds and is persisted as a depth-2 comment; on the resulting three-level
store, List shows a tree of 2 comments, never the depth-2 comment, while
`total = 3` counts it. -/
theorem C10_depth2_invisible_but_counted_witness :
    (createComment { baseStore with comments := [sampleComment, { id := 2, entityType := "project", entityId := 1, userId := 3, comment := "r", parentId := some 1, createdAt := 20 }], nextCommentId := 3 } { id := 4, role := "consultant" } noCtx "project" 1 "deep" (some 2)).fst =
      .ok { id := 3, entityType := "project", entityId := 1, userId := 4, comment := "deep", parentId := some 2, createdAt := 100 } ∧
    ((∀ t ∈ ({ threads := [{ comment := sampleComment, replies := [{ id := 2, entityType := "project", entityId := 1, userId := 3, comment := "r", parentId := some 1, createdAt := 20 }] }], total := 3, topLevel := 1 } : CommentsPage).threads,
        t.comment.id ≠ ({ id := 3, entityType := "project", entityId := 1, userId := 4, comment := "d", parentId := some 2, createdAt := 30 } : CommentRec).id ∧
        ∀ x ∈ t.replies, x.id ≠ ({ id := 3, entityType := "project", entityId := 1, userId := 4, comment := "d", parentId := some 2, createdAt := 30 } : CommentRec).id) ∧
      ({ threads := [{ comment := sampleComment, replies := [{ id := 2, entityType := "project", entityId := 1, userId := 3, comment := "r", parentId := some 1, createdAt := 20 }] }], total := 3, topLevel := 1 } : CommentsPage).total =
        (({ baseStore with comments := [sampleComment, { id := 2, entityType := "project", entityId := 1, userId := 3, comment := "r", parentId := some 1, createdAt := 20 }, { id := 3, entityType := "project", entityId := 1, userId := 4, comment := "d", parentId := some 2, createdAt := 30 }] } : Store).comments.filter (fun c => c.entityType == "project" && c.entityId == 1)).length ∧
      ({ id := 3, entityType := "project", entityId := 1, userId := 4, comment := "d", parentId := some 2, createdAt := 30 } : CommentRec) ∈
        ({ baseStore with comments := [sampleComment, { id := 2, entityType := "project", entityId := 1, userId := 3, comment := "r", parentId := some 1, createdAt := 20 }, { id := 3, entityType := "project", entityId := 1, userId := 4, comment := "d", parentId := some 2, createdAt := 30 }] } : Store).comments.filter (fun c => c.entityType == "project" && c.entityId == 1)) :=
  ⟨(C10_depth2_invisible_but_counted.1 _ { id := 4, role := "consultant" } noCtx "project" 1 "deep"
      { id := 2, entityType := "project", entityId := 1, userId := 3, comment := "r", parentId := some 1, createdAt := 20 } 1
      (by decide) (by decide) (by decide) (by decide) (by decide) (by decide) (by decide)
      (by decide) (by decide) (by decide)).1,
    C10_depth2_invisible_but_counted.2.1 _ "project" 1
      { id := 3, entityType := "project", entityId := 1, userId := 4, comment := "d", parentId := some 2, createdAt := 30 }
      { id := 2, entityType := "project", entityId := 1, userId := 3, comment := "r", parentId := some 1, createdAt := 20 }
      { threads := [{ comment := sampleComment, replies := [{ id := 2, entityType := "project", entityId := 1, userId := 3, comment := "r", parentId := some 1, createdAt := 20 }] }], total := 3, topLevel := 1 }
      { baseStore with comments := [sampleComment, { id := 2, entityType := "project", entityId := 1, userId := 3, comment := "r", parentId := some 1, createdAt := 20 }, { id := 3, entityType := "project", entityId := 1, userId := 4, comment := "d", parentId := some 2, createdAt := 30 }], entityReads := [("project", 1)] }
      (by decide) (by decide) (by decide) (by decide) (by decide) (by decide) (by decide)
      (by decide)⟩
